import Mathlib

/-!
Verification of the vision-translator capture/OCR/translate/compose pipeline
(`src/app.py`) against its specification.

The embedding below is a shallow model of `app.py`:

* text is a list of Unicode characters (`Text := List Char`);
* geometry is exact rational arithmetic (the Python source computes with
  floats, but every claimed geometric identity is an exact algebraic one);
* the external collaborators (the `screencapture` process, the Vision OCR
  engine, the Google translation engine, PIL encoding) are modelled by
  explicit behaviour values carried in a `World` record, so that theorems
  quantify over every collaborator behaviour;
* Python exceptions are modelled with `Except`: the body of
  `capture_and_translate` returns `Except PyExc ApiResult` together with the
  side-effect state (temp-file existence, translation calls performed, OCR
  invocations), and the top-level `try/except` of the source is the explicit
  match in `capture_and_translate`.
-/

namespace VisionTranslator

/-- OCR/translation text: a list of Unicode code points. -/
abbrev Text := List Char

/-- A normalized bounding box as produced by the Vision OCR engine
(`_ocr_vision`, src/app.py lines 153-161): origin at bottom-left,
coordinates are fractions of the image dimensions. -/
structure NormalizedBox where
  x : ℚ
  y : ℚ
  w : ℚ
  h : ℚ
  deriving DecidableEq

/-- A pixel-space rectangle, origin at top-left. -/
structure PixelRect where
  x : ℚ
  y : ℚ
  w : ℚ
  h : ℚ
  deriving DecidableEq

/-- The coordinate mapping of src/app.py lines 92-95:
`x = box.x * width`, `y = (1.0 - (box.y + box.h)) * height`,
`w = box.w * width`, `h = box.h * height`. -/
def toPixelRect (box : NormalizedBox) (width height : ℚ) : PixelRect :=
  { x := box.x * width
    y := (1 - (box.y + box.h)) * height
    w := box.w * width
    h := box.h * height }

/-- One OCR-detected text region (`TextFragment` of the spec):
the top candidate string plus its normalized box. -/
structure TextFragment where
  text : Text
  box : NormalizedBox
  deriving DecidableEq

/-- The character-class test of the regex at src/app.py line 50:
`[぀-ゟ゠-ヿ一-鿿]`. -/
def isJapaneseChar (c : Char) : Bool :=
  (0x3040 ≤ c.toNat && c.toNat ≤ 0x309F) ||
  (0x30A0 ≤ c.toNat && c.toNat ≤ 0x30FF) ||
  (0x4E00 ≤ c.toNat && c.toNat ≤ 0x9FFF)

/-- `re.search` of that character class over a text: true iff some character
of the text lies in one of the three ranges. -/
def containsJapanese (t : Text) : Bool :=
  List.any t isJapaneseChar

/-- The outcome of one call to the translation engine
(`GoogleTranslator(...).translate(text)`): either a translated string or a
raised exception (engine error, timeout, network failure). -/
inductive TransResult where
  | ok : Text → TransResult
  | raised : TransResult
  deriving DecidableEq

/-- A record of one call actually dispatched to the translation
collaborator, with the locales passed at src/app.py line 52. -/
structure TranslateCall where
  source : String
  target : String
  text : Text
  deriving DecidableEq

/-- `_translate_fragment` (src/app.py lines 47-55), instrumented with the
list of calls it makes to the translation collaborator.  If the text already
contains a Japanese character it is returned unchanged with no call; else
the engine is called with source "auto" and target "ja"; a raised engine
exception is caught and the original text returned. -/
def translate_fragment (engine : Text → TransResult) (text : Text) :
    Text × List TranslateCall :=
  if containsJapanese text then
    (text, [])
  else
    match engine text with
    | TransResult.ok t => (t, [{ source := "auto", target := "ja", text := text }])
    | TransResult.raised => (text, [{ source := "auto", target := "ja", text := text }])

/-!
### Concurrency model for the translation fan-out/fan-in

`list(self._executor.map(self._translate_fragment, texts))` (src/app.py
line 74) dispatches one task per text to a thread pool and reassembles the
results in input order, keyed by index, whatever order the tasks finish in.
We model a run of the pool explicitly: a completion order is a list of task
indices; `runConcurrent` is the stream of `(index, result)` pairs in
completion order, and `fanIn` rebuilds the result sequence by looking each
index up in that stream.  The engine behaviour is indexed per call so that
fault injection at one call site can be expressed. -/

/-- The stream of completed tasks, in completion order: task `i` completes
with value `f i (inputs[i])`. -/
def runConcurrent {α β : Type} (f : ℕ → α → β) (inputs : List α)
    (order : List ℕ) : List (ℕ × β) :=
  order.filterMap (fun i => (inputs.get? i).map (fun x => (i, f i x)))

/-- Index-keyed reassembly of completed tasks into input order. -/
def fanIn {β : Type} (n : ℕ) (completions : List (ℕ × β)) : List (Option β) :=
  (List.range n).map (fun i => (completions.find? (fun p => p.1 == i)).map Prod.snd)

/-- The translation stage over a completion order: fan out one
`_translate_fragment` task per text, fan the results back in by index. -/
def translateAll (engine : ℕ → Text → TransResult) (texts : List Text)
    (order : List ℕ) : List (Option Text) :=
  fanIn texts.length
    (runConcurrent (fun i t => (translate_fragment (engine i) t).1) texts order)

/-- A concrete engine for witnesses: the call for task 1 raises, every
other call succeeds with the single letter a. -/
def wEngine : ℕ → Text → TransResult :=
  fun i _ => if i = 1 then TransResult.raised else TransResult.ok [Char.ofNat 97]

/-!
### The Vision OCR wrapper (`_ocr_vision`, src/app.py lines 124-163)
-/

/-- One raw recognition result of the Vision engine: its candidate strings
(best first, as returned by `topCandidates_(1)`) and its normalized
bounding box. -/
structure VNRegion where
  candidates : List Text
  box : NormalizedBox
  deriving DecidableEq

/-- One invocation of the Vision engine: the success flag returned by
`performRequests_error_` and the recognition results. -/
structure VisionOutcome where
  success : Bool
  results : List VNRegion
  deriving DecidableEq

/-- `_ocr_vision` (src/app.py lines 124-163): if the engine reports failure
the function returns the empty list (line 142-143); otherwise, for each
region with a nonempty candidate list, the top candidate string is paired
with the region's bounding box. -/
def ocr_vision (outcome : VisionOutcome) : List TextFragment :=
  if outcome.success = false then []
  else
    outcome.results.filterMap
      (fun r => (r.candidates.head?).map (fun t => { text := t, box := r.box }))

/-!
### Compositing (src/app.py lines 76-108)
-/

inductive Color where
  | white
  | black
  deriving DecidableEq

/-- The font value used for drawing: `ImageFont.truetype(path, size)` or
`ImageFont.load_default()` (src/app.py lines 83-86). -/
inductive Font where
  | truetype (path : String) (size : ℕ)
  | load_default
  deriving DecidableEq

/-- Font resolution of src/app.py lines 83-86: the cached font path, when
present, is opened as a truetype font at point size 14; otherwise the
default font is used. -/
def resolveFont : Option String → Font
  | some p => Font.truetype p 14
  | none => Font.load_default

/-- One PIL drawing call: `draw.rectangle([...], fill=...)` or
`draw.text((x, y), s, fill=..., font=...)`. -/
inductive DrawOp where
  | rect (x0 y0 x1 y1 : ℚ) (fill : Color)
  | text (x y : ℚ) (s : Text) (fill : Color) (font : Font)
  deriving DecidableEq

def opColor : DrawOp → Color
  | DrawOp.rect _ _ _ _ c => c
  | DrawOp.text _ _ _ c _ => c

/-- The drawing loop of src/app.py lines 88-103: for the i-th fragment,
compute the pixel rectangle from the normalized box (lines 92-95), fill the
rectangle expanded by `padding = 2` with white (lines 98-102), then draw
the translated text at `(x, y)` in black with the resolved font (line 103). -/
def composeOps (results : List TextFragment) (translated_texts : List Text)
    (width height : ℚ) (font : Font) : List DrawOp :=
  (results.zip translated_texts).bind (fun p =>
    let box := p.1.box
    let x := box.x * width
    let y := (1 - (box.y + box.h)) * height
    let w := box.w * width
    let h := box.h * height
    let padding : ℚ := 2
    [DrawOp.rect (x - padding) (y - padding) (x + w + padding) (y + h + padding)
        Color.white,
      DrawOp.text x y p.2 Color.black font])

/-- Abstract glyph coverage: whether drawing string `s` with a font at an
origin makes ink at a point.  Left abstract because glyph shapes live in
the font rasterizer, not in app.py. -/
def GlyphCov : Type := Font → Text → ℚ → ℚ → ℚ → ℚ → Bool

/-- Whether a drawing call puts paint at the point `(px, py)`. -/
def covers (glyph : GlyphCov) : DrawOp → ℚ → ℚ → Bool
  | DrawOp.rect x0 y0 x1 y1 _, px, py =>
      decide (x0 ≤ px ∧ px ≤ x1 ∧ y0 ≤ py ∧ py ≤ y1)
  | DrawOp.text x y s _ f, px, py => glyph f s x y px py

/-- Sequential raster semantics of PIL drawing: each call overwrites the
pixels it covers, so the final color at a point is decided by the last
covering call (last-drawn-wins). -/
def render (glyph : GlyphCov) (bg : ℚ → ℚ → Color) (ops : List DrawOp)
    (px py : ℚ) : Color :=
  ops.foldl (fun acc op => if covers glyph op px py then opColor op else acc)
    (bg px py)

/-!
### The pipeline controller (`capture_and_translate`, src/app.py lines 57-122)
-/

/-- Behaviour of one `subprocess.run(["screencapture", "-i", path])` call:
exit status (nonzero raises `CalledProcessError` because of `check=True`)
and whether a capture file was written to the path. -/
inductive CaptureBehavior where
  | exitNonzero (fileWritten : Bool)
  | exitZero (fileWritten : Bool)
  deriving DecidableEq

/-- A Python exception reaching the top-level handlers of
`capture_and_translate`: `subprocess.CalledProcessError` (line 117) or any
other exception with its message (line 119). -/
inductive PyExc where
  | calledProcessError
  | exc (msg : String)
  deriving DecidableEq

/-- The two `except` handlers of src/app.py lines 117-122:
`CalledProcessError` becomes the "Capture cancelled" error, any other
exception becomes `str(e)`. -/
def excMessage : PyExc → String
  | PyExc.calledProcessError => "Capture cancelled"
  | PyExc.exc msg => msg

/-- The value returned to the UI layer: a dict with an `image` data URI or
a dict with an `error` string. -/
inductive ApiResult where
  | image (dataURI : String)
  | error (msg : String)
  deriving DecidableEq

/-- The behaviours of all collaborators during one pipeline run, plus the
image dimensions of the captured raster. -/
structure World where
  capture : CaptureBehavior
  vision : VisionOutcome
  engine : ℕ → Text → TransResult
  imageW : ℚ
  imageH : ℚ
  fontPath : Option String
  imageStage : Option String
  pngEncode : List DrawOp → String

/-- The observable outcome of one run: the returned value, whether the
temporary capture file is on disk after the return, the calls dispatched to
the translation collaborator, and how many times the OCR engine ran. -/
structure RunOutcome where
  result : ApiResult
  fileExists : Bool
  calls : List TranslateCall
  ocrCalls : ℕ

/-- `_cleanup` (src/app.py lines 28-33), run at startup: removes the
temporary capture file if a previous run left one behind. -/
def cleanup_startup (fileExists : Bool) : Bool :=
  false

/-- The texts extracted for translation (src/app.py line 73). -/
def pipelineTexts (w : World) : List Text :=
  (ocr_vision w.vision).map TextFragment.text

/-- The in-order translation results (src/app.py line 74: `executor.map`
keyed by input index). -/
def pipelineTranslated (w : World) : List Text :=
  (pipelineTexts w).enum.map (fun p => (translate_fragment (w.engine p.1) p.2).1)

/-- All calls dispatched to the translation collaborator during the run. -/
def pipelineCalls (w : World) : List TranslateCall :=
  (pipelineTexts w).enum.bind (fun p => (translate_fragment (w.engine p.1) p.2).2)

/-- The drawing calls of the compositing stage of the run. -/
def pipelineOps (w : World) : List DrawOp :=
  composeOps (ocr_vision w.vision) (pipelineTranslated w) w.imageW w.imageH
    (resolveFont w.fontPath)

/-- The `try`-block body of `capture_and_translate` (src/app.py lines
58-116): the outcome (a returned value or a raised exception), the
temp-file state on exit, the translation calls made, and the number of OCR
invocations.  Mirrors the source line by line: capture (60), missing-file
check (62-63), OCR (66), empty-result check (69-70), translation (72-74),
image processing with possible failure (76-108), cleanup (110-112), return
(114-116). -/
def capture_and_translate_body (w : World) (file0 : Bool) :
    Except PyExc ApiResult × Bool × List TranslateCall × ℕ :=
  match w.capture with
  | CaptureBehavior.exitNonzero written =>
      (Except.error PyExc.calledProcessError, file0 || written, [], 0)
  | CaptureBehavior.exitZero written =>
      if (file0 || written) = false then
        (Except.ok (ApiResult.error ("Canceled or failed to capture")), false, [], 0)
      else if (ocr_vision w.vision).isEmpty then
        (Except.ok (ApiResult.error ("No text detected")), file0 || written, [], 1)
      else
        match w.imageStage with
        | some msg => (Except.error (PyExc.exc msg), file0 || written, pipelineCalls w, 1)
        | none =>
            (Except.ok (ApiResult.image ("data:image/png;base64," ++
                w.pngEncode (pipelineOps w))),
              false, pipelineCalls w, 1)

/-- `capture_and_translate` (src/app.py lines 57-122): the body wrapped in
the top-level `try/except`, converting a raised exception into an error
value. -/
def capture_and_translate (w : World) (file0 : Bool) : RunOutcome :=
  { result :=
      match (capture_and_translate_body w file0).1 with
      | Except.ok r => r
      | Except.error e => ApiResult.error (excMessage e)
    fileExists := (capture_and_translate_body w file0).2.1
    calls := (capture_and_translate_body w file0).2.2.1
    ocrCalls := (capture_and_translate_body w file0).2.2.2 }

/-!
### Concrete sample values for witnesses and counterexamples
-/

def sampleBox : NormalizedBox :=
  { x := 1/10, y := 4/5, w := 3/10, h := 1/10 }

def sampleFragment : TextFragment :=
  { text := [Char.ofNat 72], box := sampleBox }

def sampleRegion : VNRegion :=
  { candidates := [[Char.ofNat 72]], box := sampleBox }

/-- A fully successful run: capture writes the file, the OCR engine
succeeds with one region, the translation engine raises (so the fragment
falls back to its source text), image processing succeeds. -/
def wBase : World :=
  { capture := CaptureBehavior.exitZero true
    vision := { success := true, results := [sampleRegion] }
    engine := fun _ _ => TransResult.raised
    imageW := 100
    imageH := 100
    fontPath := none
    imageStage := none
    pngEncode := fun _ => "" }

/-- Like `wBase` but the OCR engine reports failure. -/
def wVisionFail : World :=
  { wBase with vision := { success := false, results := [sampleRegion] } }

/-- Like `wBase` but the OCR engine succeeds with zero regions. -/
def wNoRegions : World :=
  { wBase with vision := { success := true, results := [] } }

/-- Like `wBase` but the capture process exits nonzero without a file. -/
def wCancelled : World :=
  { wBase with capture := CaptureBehavior.exitNonzero false }

/-- Like `wBase` but the capture process exits zero without writing. -/
def wNoFile : World :=
  { wBase with capture := CaptureBehavior.exitZero false }

theorem mem_runConcurrent {α β : Type} (f : ℕ → α → β) (inputs : List α)
    (order : List ℕ) (p : ℕ × β) (hp : p ∈ runConcurrent f inputs order) :
    ∃ x, inputs.get? p.1 = some x ∧ p.2 = f p.1 x := by
  rcases List.mem_filterMap.mp hp with ⟨a, _, ha⟩
  rcases Option.map_eq_some'.mp ha with ⟨x, hx, hgx⟩
  cases hgx
  exact ⟨x, hx, rfl⟩

theorem find_runConcurrent {α β : Type} (f : ℕ → α → β) (inputs : List α)
    (order : List ℕ) (i : ℕ) (x : α) (hi : i ∈ order)
    (hx : inputs.get? i = some x) :
    (runConcurrent f inputs order).find? (fun p => p.1 == i) = some (i, f i x) := by
  have hmem : (i, f i x) ∈ runConcurrent f inputs order := by
    refine List.mem_filterMap.mpr ⟨i, hi, ?_⟩
    rw [hx]; rfl
  have hsome : ((runConcurrent f inputs order).find? (fun p => p.1 == i)).isSome := by
    rw [List.find?_isSome]
    exact ⟨(i, f i x), hmem, by simp⟩
  rcases Option.isSome_iff_exists.mp hsome with ⟨⟨q1, q2⟩, hq⟩
  have hq1 : q1 = i := by simpa using List.find?_some hq
  subst hq1
  rcases mem_runConcurrent f inputs order _ (List.mem_of_find?_eq_some hq) with
    ⟨x2, hx2, hq2⟩
  simp only at hx2 hq2
  rw [hx] at hx2
  injection hx2 with hx2
  subst hx2
  rw [hq, hq2]

/-- The central fan-in lemma: for any completion order that is a permutation
of the task indices, index-keyed reassembly recovers exactly the in-order
map of the task function over the inputs. -/
theorem fanIn_runConcurrent {α β : Type} (f : ℕ → α → β) (inputs : List α)
    (order : List ℕ) (h : order.Perm (List.range inputs.length)) (i : ℕ) :
    (fanIn inputs.length (runConcurrent f inputs order)).get? i =
      (inputs.get? i).map (fun x => some (f i x)) := by
  unfold fanIn
  rw [List.get?_map]
  by_cases hi : i < inputs.length
  · rw [List.get?_range hi]
    obtain ⟨x, hx⟩ : ∃ x, inputs.get? i = some x := ⟨_, List.get?_eq_get hi⟩
    have hio : i ∈ order := h.mem_iff.mpr (List.mem_range.mpr hi)
    rw [hx]
    simp only [Option.map_some']
    rw [find_runConcurrent f inputs order i x hio hx]
    rfl
  · have h1 : (List.range inputs.length).get? i = none :=
      List.get?_eq_none.mpr (by simpa using Nat.le_of_not_lt hi)
    have h2 : inputs.get? i = none :=
      List.get?_eq_none.mpr (Nat.le_of_not_lt hi)
    rw [h1, h2]
    rfl

theorem translateAll_length (engine : ℕ → Text → TransResult)
    (texts : List Text) (order : List ℕ) :
    (translateAll engine texts order).length = texts.length := by
  unfold translateAll fanIn
  rw [List.length_map, List.length_range]

/-- C2: for every completion order of the concurrent translation calls, the
translation stage returns exactly `n` results, and the `i`-th result is the
translation (or pass-through) of the `i`-th input text — matching is by
index, so duplicate texts keep their own slots. -/
theorem translateAll_order_preserving (engine : ℕ → Text → TransResult)
    (texts : List Text) (order : List ℕ)
    (h : order.Perm (List.range texts.length)) :
    (translateAll engine texts order).length = texts.length ∧
    ∀ i : ℕ, (translateAll engine texts order).get? i =
      (texts.get? i).map (fun t => some ((translate_fragment (engine i) t).1)) := by
  refine ⟨translateAll_length engine texts order, fun i => ?_⟩
  exact fanIn_runConcurrent (fun i t => (translate_fragment (engine i) t).1)
    texts order h i

/-- Witness for C2 at a concrete input: two tasks completing in reversed
order still yield the in-order results; the two inputs are duplicates and
each keeps its own slot. -/
theorem translateAll_order_preserving_witness :
    (translateAll
        (fun i _ => if i = 0 then TransResult.ok [Char.ofNat 97] else TransResult.ok [Char.ofNat 98])
        [[Char.ofNat 104], [Char.ofNat 104]] [1, 0]).length = 2 ∧
    ∀ i : ℕ, (translateAll
        (fun i _ => if i = 0 then TransResult.ok [Char.ofNat 97] else TransResult.ok [Char.ofNat 98])
        [[Char.ofNat 104], [Char.ofNat 104]] [1, 0]).get? i =
      ([([Char.ofNat 104] : Text), [Char.ofNat 104]].get? i).map
        (fun t => some ((translate_fragment
          ((fun i _ => if i = 0 then TransResult.ok [Char.ofNat 97] else TransResult.ok [Char.ofNat 98]) i) t).1)) :=
  translateAll_order_preserving _ _ _ (by decide)

theorem translate_fragment_raised (e : Text → TransResult) (t : Text)
    (h : e t = TransResult.raised) : (translate_fragment e t).1 = t := by
  unfold translate_fragment
  by_cases hc : containsJapanese t
  · rw [if_pos hc]
  · rw [if_neg hc, h]

theorem containsJapanese_of_all (s : Text) (hne : s ≠ [])
    (h : ∀ c ∈ s, isJapaneseChar c = true) : containsJapanese s = true := by
  cases s with
  | nil => exact absurd rfl hne
  | cons c cs =>
      unfold containsJapanese
      rw [List.any_cons, h c (List.mem_cons_self c cs)]
      rfl

/-- C3: if the engine call for fragment `j` raises, the batch is not
aborted: the result sequence still has length `n`, slot `j` falls back to
the original source text, and every other slot is unaffected (it depends
only on its own engine behaviour, not on the failure at `j`); no exception
leaves the stage — `translateAll` is a total function into plain lists. -/
theorem translateAll_failure_isolated (engine : ℕ → Text → TransResult)
    (texts : List Text) (order : List ℕ) (j : ℕ) (tj : Text)
    (h : order.Perm (List.range texts.length))
    (hj : texts.get? j = some tj)
    (hraise : engine j tj = TransResult.raised) :
    (translateAll engine texts order).length = texts.length ∧
    (translateAll engine texts order).get? j = some (some tj) ∧
    (∀ (engine2 : ℕ → Text → TransResult) (order2 : List ℕ),
      order2.Perm (List.range texts.length) →
      (∀ k, k ≠ j → engine2 k = engine k) →
      ∀ i, i ≠ j →
        (translateAll engine2 texts order2).get? i =
        (translateAll engine texts order).get? i) := by
  refine ⟨translateAll_length engine texts order, ?_, ?_⟩
  · unfold translateAll
    rw [fanIn_runConcurrent (fun i t => (translate_fragment (engine i) t).1)
        texts order h j, hj]
    simp only [Option.map_some']
    rw [translate_fragment_raised (engine j) tj hraise]
  · intro e2 o2 h2p h2 i hi
    unfold translateAll
    rw [fanIn_runConcurrent (fun i t => (translate_fragment (e2 i) t).1)
        texts o2 h2p i,
      fanIn_runConcurrent (fun i t => (translate_fragment (engine i) t).1)
        texts order h i,
      h2 i hi]

/-- Witness for C3: two texts, the engine raising on the second, completion
order reversed: both results are delivered and slot 1 falls back to its
source text. -/
theorem translateAll_failure_isolated_witness :
    (translateAll wEngine [[Char.ofNat 104], [Char.ofNat 105]] [1, 0]).length = 2 ∧
    (translateAll wEngine [[Char.ofNat 104], [Char.ofNat 105]] [1, 0]).get? 1 =
      some (some [Char.ofNat 105]) :=
  ⟨(translateAll_failure_isolated wEngine [[Char.ofNat 104], [Char.ofNat 105]]
      [1, 0] 1 [Char.ofNat 105] (by decide) rfl (by decide)).1,
   (translateAll_failure_isolated wEngine [[Char.ofNat 104], [Char.ofNat 105]]
      [1, 0] 1 [Char.ofNat 105] (by decide) rfl (by decide)).2.1⟩

/-- C4: a fragment whose text contains at least one character of the target
script ranges is returned unchanged with zero calls to the translation
collaborator; in particular (third conjunct) a nonempty text consisting
solely of target-script characters is returned unchanged with zero calls. -/
theorem translate_fragment_skip (e : Text → TransResult) (t : Text)
    (h : containsJapanese t = true) :
    (translate_fragment e t).1 = t ∧
    (translate_fragment e t).2 = [] ∧
    (∀ s : Text, s ≠ [] → (∀ c ∈ s, isJapaneseChar c = true) →
      (translate_fragment e s).1 = s ∧ (translate_fragment e s).2 = []) := by
  refine ⟨?_, ?_, ?_⟩
  · unfold translate_fragment; rw [if_pos h]
  · unfold translate_fragment; rw [if_pos h]
  · intro s hne hall
    have hs : containsJapanese s = true := containsJapanese_of_all s hne hall
    constructor
    · unfold translate_fragment; rw [if_pos hs]
    · unfold translate_fragment; rw [if_pos hs]

/-- Witness for C4: the single hiragana character U+3042 is passed through
with no engine call. -/
theorem translate_fragment_skip_witness :
    (translate_fragment (fun _ => TransResult.raised) [Char.ofNat 0x3042]).1 =
      [Char.ofNat 0x3042] ∧
    (translate_fragment (fun _ => TransResult.raised) [Char.ofNat 0x3042]).2 = [] :=
  ⟨(translate_fragment_skip (fun _ => TransResult.raised) [Char.ofNat 0x3042]
      (by decide)).1,
   (translate_fragment_skip (fun _ => TransResult.raised) [Char.ofNat 0x3042]
      (by decide)).2.1⟩

/-- C1: the coordinate mapping computes exactly the spec formulas, and
satisfies the vertical-flip invariant `pixelY + pixelH = H - b.y * H` and the
horizontal-preservation invariant `pixelX = b.x * W`. -/
theorem toPixelRect_spec (b : NormalizedBox) (W H : ℚ) :
    (toPixelRect b W H).x = b.x * W ∧
    (toPixelRect b W H).y = (1 - (b.y + b.h)) * H ∧
    (toPixelRect b W H).w = b.w * W ∧
    (toPixelRect b W H).h = b.h * H ∧
    (toPixelRect b W H).y + (toPixelRect b W H).h = H - b.y * H ∧
    (toPixelRect b W H).x = b.x * W := by
  refine ⟨rfl, rfl, rfl, rfl, ?_, rfl⟩
  show (1 - (b.y + b.h)) * H + b.h * H = H - b.y * H
  ring

/-!
### Branch characterizations of the pipeline controller
-/

theorem run_exitNonzero (w : World) (file0 written : Bool)
    (h : w.capture = CaptureBehavior.exitNonzero written) :
    capture_and_translate w file0 =
      { result := ApiResult.error ("Capture cancelled")
        fileExists := file0 || written
        calls := []
        ocrCalls := 0 } := by
  unfold capture_and_translate capture_and_translate_body
  rw [h]
  rfl

theorem run_noFile (w : World) (file0 written : Bool)
    (h : w.capture = CaptureBehavior.exitZero written)
    (hf : (file0 || written) = false) :
    capture_and_translate w file0 =
      { result := ApiResult.error ("Canceled or failed to capture")
        fileExists := false
        calls := []
        ocrCalls := 0 } := by
  unfold capture_and_translate capture_and_translate_body
  rw [h]
  simp only [if_pos hf]

theorem run_noText (w : World) (file0 written : Bool)
    (h : w.capture = CaptureBehavior.exitZero written)
    (hf : (file0 || written) = true)
    (hr : ocr_vision w.vision = []) :
    capture_and_translate w file0 =
      { result := ApiResult.error ("No text detected")
        fileExists := true
        calls := []
        ocrCalls := 1 } := by
  have hf2 : ¬((file0 || written) = false) := by rw [hf]; simp
  have hie : (ocr_vision w.vision).isEmpty = true := by rw [hr]; rfl
  unfold capture_and_translate capture_and_translate_body
  rw [h]
  simp only [if_neg hf2, if_pos hie, hf]
  rfl

theorem run_imageExc (w : World) (file0 written : Bool) (msg : String)
    (h : w.capture = CaptureBehavior.exitZero written)
    (hf : (file0 || written) = true)
    (hr : ocr_vision w.vision ≠ [])
    (hi : w.imageStage = some msg) :
    capture_and_translate w file0 =
      { result := ApiResult.error msg
        fileExists := true
        calls := pipelineCalls w
        ocrCalls := 1 } := by
  have hf2 : ¬((file0 || written) = false) := by rw [hf]; simp
  have hie : ¬((ocr_vision w.vision).isEmpty = true) := by
    intro hcon
    exact hr (List.isEmpty_iff.mp hcon)
  unfold capture_and_translate capture_and_translate_body
  rw [h]
  simp only [if_neg hf2, if_neg hie, hi, hf]
  rfl

theorem run_success (w : World) (file0 written : Bool)
    (h : w.capture = CaptureBehavior.exitZero written)
    (hf : (file0 || written) = true)
    (hr : ocr_vision w.vision ≠ [])
    (hi : w.imageStage = none) :
    capture_and_translate w file0 =
      { result := ApiResult.image ("data:image/png;base64," ++
          w.pngEncode (pipelineOps w))
        fileExists := false
        calls := pipelineCalls w
        ocrCalls := 1 } := by
  have hf2 : ¬((file0 || written) = false) := by rw [hf]; simp
  have hie : ¬((ocr_vision w.vision).isEmpty = true) := by
    intro hcon
    exact hr (List.isEmpty_iff.mp hcon)
  unfold capture_and_translate capture_and_translate_body
  rw [h]
  simp only [if_neg hf2, if_neg hie, hi]

/-- Exhaustive case split over the branches of one run: the result is an
error, or it is the data-URI image of the composited drawing calls. -/
theorem result_cases (w : World) (file0 : Bool) :
    (∃ m, (capture_and_translate w file0).result = ApiResult.error m) ∨
    (capture_and_translate w file0).result =
      ApiResult.image ("data:image/png;base64," ++ w.pngEncode (pipelineOps w)) := by
  cases hcap : w.capture with
  | exitNonzero written =>
      rw [run_exitNonzero w file0 written hcap]
      exact Or.inl ⟨_, rfl⟩
  | exitZero written =>
      by_cases hf : (file0 || written) = false
      · rw [run_noFile w file0 written hcap hf]
        exact Or.inl ⟨_, rfl⟩
      · have hf2 : (file0 || written) = true := by
          cases hb : (file0 || written)
          · exact absurd hb hf
          · rfl
        by_cases hr : ocr_vision w.vision = []
        · rw [run_noText w file0 written hcap hf2 hr]
          exact Or.inl ⟨_, rfl⟩
        · cases hi : w.imageStage with
          | some msg =>
              rw [run_imageExc w file0 written msg hcap hf2 hr hi]
              exact Or.inl ⟨_, rfl⟩
          | none =>
              rw [run_success w file0 written hcap hf2 hr hi]
              exact Or.inr rfl

/-- The translation calls of one run: none, or exactly the fan-out of
`_translate_fragment` over the extracted texts. -/
theorem calls_cases (w : World) (file0 : Bool) :
    (capture_and_translate w file0).calls = [] ∨
    (capture_and_translate w file0).calls = pipelineCalls w := by
  cases hcap : w.capture with
  | exitNonzero written =>
      rw [run_exitNonzero w file0 written hcap]
      exact Or.inl rfl
  | exitZero written =>
      by_cases hf : (file0 || written) = false
      · rw [run_noFile w file0 written hcap hf]
        exact Or.inl rfl
      · have hf2 : (file0 || written) = true := by
          cases hb : (file0 || written)
          · exact absurd hb hf
          · rfl
        by_cases hr : ocr_vision w.vision = []
        · rw [run_noText w file0 written hcap hf2 hr]
          exact Or.inl rfl
        · cases hi : w.imageStage with
          | some msg =>
              rw [run_imageExc w file0 written msg hcap hf2 hr hi]
              exact Or.inr rfl
          | none =>
              rw [run_success w file0 written hcap hf2 hr hi]
              exact Or.inr rfl

/-!
### Compositor lemmas
-/

theorem composeOps_cons (r : TextFragment) (rs : List TextFragment)
    (t0 : Text) (ts : List Text) (W H : ℚ) (font : Font) :
    composeOps (r :: rs) (t0 :: ts) W H font =
      DrawOp.rect (r.box.x * W - 2) ((1 - (r.box.y + r.box.h)) * H - 2)
          (r.box.x * W + r.box.w * W + 2)
          ((1 - (r.box.y + r.box.h)) * H + r.box.h * H + 2) Color.white ::
        DrawOp.text (r.box.x * W) ((1 - (r.box.y + r.box.h)) * H) t0
          Color.black font ::
        composeOps rs ts W H font := rfl

theorem composeOps_get (W H : ℚ) (font : Font) :
    ∀ (results : List TextFragment) (texts : List Text) (i : ℕ)
      (frag : TextFragment) (t : Text),
      results.get? i = some frag → texts.get? i = some t →
      (composeOps results texts W H font).get? (2 * i) =
        some (DrawOp.rect ((toPixelRect frag.box W H).x - 2)
          ((toPixelRect frag.box W H).y - 2)
          ((toPixelRect frag.box W H).x + (toPixelRect frag.box W H).w + 2)
          ((toPixelRect frag.box W H).y + (toPixelRect frag.box W H).h + 2)
          Color.white) ∧
      (composeOps results texts W H font).get? (2 * i + 1) =
        some (DrawOp.text ((toPixelRect frag.box W H).x)
          ((toPixelRect frag.box W H).y) t Color.black font) := by
  intro results
  induction results with
  | nil =>
      intro texts i frag t h1 _
      simp at h1
  | cons r rs ih =>
      intro texts i frag t h1 h2
      cases texts with
      | nil => simp at h2
      | cons t0 ts =>
          cases i with
          | zero =>
              rw [List.get?_cons_zero] at h1 h2
              injection h1 with h1
              injection h2 with h2
              subst h1
              subst h2
              exact ⟨rfl, rfl⟩
          | succ n =>
              rw [List.get?_cons_succ] at h1 h2
              have e1 : 2 * (n + 1) = 2 * n + 1 + 1 := by ring
              have e2 : 2 * (n + 1) + 1 = 2 * n + 1 + 1 + 1 := by ring
              obtain ⟨g1, g2⟩ := ih ts n frag t h1 h2
              constructor
              · rw [composeOps_cons, e1, List.get?_cons_succ,
                  List.get?_cons_succ]
                exact g1
              · rw [composeOps_cons, e2, List.get?_cons_succ,
                  List.get?_cons_succ]
                exact g2

theorem foldl_render_skip (glyph : GlyphCov) (px py : ℚ) :
    ∀ (ops : List DrawOp) (c : Color),
      (∀ o ∈ ops, covers glyph o px py = false) →
      ops.foldl
        (fun acc op => if covers glyph op px py then opColor op else acc) c = c := by
  intro ops
  induction ops with
  | nil => intro c _; rfl
  | cons o os ih =>
      intro c h
      rw [List.foldl_cons]
      have hno : ¬(covers glyph o px py = true) := by
        rw [h o (List.mem_cons_self o os)]
        simp
      rw [if_neg hno]
      exact ih c (fun o2 ho2 => h o2 (List.mem_cons_of_mem o ho2))

theorem render_last_wins (glyph : GlyphCov) (bg : ℚ → ℚ → Color)
    (pre post : List DrawOp) (op : DrawOp) (px py : ℚ)
    (hc : covers glyph op px py = true)
    (hpost : ∀ o ∈ post, covers glyph o px py = false) :
    render glyph bg (pre ++ op :: post) px py = opColor op := by
  unfold render
  rw [List.foldl_append, List.foldl_cons, if_pos hc]
  exact foldl_render_skip glyph px py post (opColor op) hpost

theorem translate_fragment_call_locales (e : Text → TransResult) (t : Text)
    (call : TranslateCall) (h : call ∈ (translate_fragment e t).2) :
    call.source = "auto" ∧ call.target = "ja" := by
  unfold translate_fragment at h
  by_cases hc : containsJapanese t
  · rw [if_pos hc] at h
    simp at h
  · rw [if_neg hc] at h
    cases he : e t with
    | ok t2 =>
        rw [he] at h
        rcases List.mem_singleton.mp h with rfl
        exact ⟨rfl, rfl⟩
    | raised =>
        rw [he] at h
        rcases List.mem_singleton.mp h with rfl
        exact ⟨rfl, rfl⟩

theorem pipelineCalls_locales (w : World) (call : TranslateCall)
    (h : call ∈ pipelineCalls w) :
    call.source = "auto" ∧ call.target = "ja" := by
  unfold pipelineCalls at h
  rcases List.mem_bind.mp h with ⟨p, _, hp⟩
  exact translate_fragment_call_locales (w.engine p.1) p.2 call hp

/-!
### The claims about the pipeline controller
-/

/-- C5 counterexample: `_ocr_vision` maps an engine-level failure to the
empty fragment list, exactly what a successful run with zero regions
produces, and the pipeline reports the same "No text detected" error for
both — the two conditions are not observably different to the caller. -/
theorem ocr_failure_counterexample :
    ocr_vision { success := false, results := [sampleRegion] } =
      ocr_vision { success := true, results := [] } ∧
    (capture_and_translate wVisionFail false).result =
      ApiResult.error ("No text detected") ∧
    (capture_and_translate wNoRegions false).result =
      ApiResult.error ("No text detected") :=
  ⟨rfl, rfl, rfl⟩

/-- C5 amended: when the OCR engine reports failure, extraction returns the
empty sequence — the same value as zero detected regions — and the pipeline
surfaces it as the same "No text detected" condition, so engine failure and
empty result are not distinguished. -/
theorem ocr_failure_is_no_text (w : World) (file0 written : Bool)
    (hc : w.capture = CaptureBehavior.exitZero written)
    (hf : (file0 || written) = true)
    (hs : w.vision.success = false) :
    ocr_vision w.vision = [] ∧
    (capture_and_translate w file0).result =
      ApiResult.error ("No text detected") := by
  have h1 : ocr_vision w.vision = [] := by
    unfold ocr_vision
    rw [hs]
    rfl
  refine ⟨h1, ?_⟩
  rw [run_noText w file0 written hc hf h1]

/-- Witness for the amended C5 at the concrete failing world. -/
theorem ocr_failure_is_no_text_witness :
    ocr_vision wVisionFail.vision = [] ∧
    (capture_and_translate wVisionFail false).result =
      ApiResult.error ("No text detected") :=
  ocr_failure_is_no_text wVisionFail false true rfl rfl rfl

/-- C6 counterexample: a run that detects no text returns with the capture
file still on disk — an exit path on which the transient file remains. -/
theorem temp_file_leak_counterexample :
    (capture_and_translate wNoRegions false).result =
      ApiResult.error ("No text detected") ∧
    (capture_and_translate wNoRegions false).fileExists = true :=
  ⟨rfl, rfl⟩

/-- C6 amended: the capture file is deleted before returning on the
success path, but it remains on disk on the no-text-detected path and on
the unexpected-exception path; leftover files are only removed by the
startup cleanup of the next session. -/
theorem cleanup_on_paths (w : World) (file0 written : Bool)
    (hc : w.capture = CaptureBehavior.exitZero written)
    (hf : (file0 || written) = true) :
    (ocr_vision w.vision ≠ [] → w.imageStage = none →
      (capture_and_translate w file0).fileExists = false) ∧
    (ocr_vision w.vision = [] →
      (capture_and_translate w file0).fileExists = true) ∧
    (∀ msg, ocr_vision w.vision ≠ [] → w.imageStage = some msg →
      (capture_and_translate w file0).fileExists = true) ∧
    (∀ b, cleanup_startup b = false) := by
  refine ⟨?_, ?_, ?_, fun _ => rfl⟩
  · intro hr hi
    rw [run_success w file0 written hc hf hr hi]
  · intro hr
    rw [run_noText w file0 written hc hf hr]
  · intro msg hr hi
    rw [run_imageExc w file0 written msg hc hf hr hi]

/-- Witness for the amended C6: the success path deletes the file, the
no-text path leaves it behind. -/
theorem cleanup_on_paths_witness :
    (capture_and_translate wBase false).fileExists = false ∧
    (capture_and_translate wNoRegions false).fileExists = true :=
  ⟨(cleanup_on_paths wBase false true rfl rfl).1 (by decide) rfl,
   (cleanup_on_paths wNoRegions false true rfl rfl).2.1 rfl⟩

/-- C7: for the i-th translated fragment the compositor emits, in
extraction order, first the fill of the fragment's pixel rectangle expanded
by the fixed padding 2 on all sides in opaque white (ops position 2i), then
the draw of the translated text at the unpadded top-left origin `(x, y)` in
black with the resolved font (position 2i+1); under the sequential raster
semantics a later covering fill occludes everything drawn before it
(last-drawn-wins); and a resolved font path is used at point size 14. -/
theorem compositor_spec (results : List TextFragment) (texts : List Text)
    (W H : ℚ) (font : Font) (i : ℕ) (frag : TextFragment) (t : Text)
    (h1 : results.get? i = some frag) (h2 : texts.get? i = some t) :
    (composeOps results texts W H font).get? (2 * i) =
      some (DrawOp.rect ((toPixelRect frag.box W H).x - 2)
        ((toPixelRect frag.box W H).y - 2)
        ((toPixelRect frag.box W H).x + (toPixelRect frag.box W H).w + 2)
        ((toPixelRect frag.box W H).y + (toPixelRect frag.box W H).h + 2)
        Color.white) ∧
    (composeOps results texts W H font).get? (2 * i + 1) =
      some (DrawOp.text ((toPixelRect frag.box W H).x)
        ((toPixelRect frag.box W H).y) t Color.black font) ∧
    (∀ (glyph : GlyphCov) (bg : ℚ → ℚ → Color) (pre post : List DrawOp)
      (op : DrawOp) (px py : ℚ),
      covers glyph op px py = true →
      (∀ o ∈ post, covers glyph o px py = false) →
      render glyph bg (pre ++ op :: post) px py = opColor op) ∧
    (∀ p, resolveFont (some p) = Font.truetype p 14) := by
  obtain ⟨g1, g2⟩ := composeOps_get W H font results texts i frag t h1 h2
  exact ⟨g1, g2, fun glyph bg pre post op px py hc hpost =>
    render_last_wins glyph bg pre post op px py hc hpost, fun _ => rfl⟩

/-- Witness for C7 at a concrete fragment on a 100 by 100 image. -/
theorem compositor_spec_witness :
    (composeOps [sampleFragment] [[Char.ofNat 72]] 100 100
        Font.load_default).get? 0 =
      some (DrawOp.rect ((toPixelRect sampleFragment.box 100 100).x - 2)
        ((toPixelRect sampleFragment.box 100 100).y - 2)
        ((toPixelRect sampleFragment.box 100 100).x +
          (toPixelRect sampleFragment.box 100 100).w + 2)
        ((toPixelRect sampleFragment.box 100 100).y +
          (toPixelRect sampleFragment.box 100 100).h + 2)
        Color.white) ∧
    (composeOps [sampleFragment] [[Char.ofNat 72]] 100 100
        Font.load_default).get? 1 =
      some (DrawOp.text ((toPixelRect sampleFragment.box 100 100).x)
        ((toPixelRect sampleFragment.box 100 100).y) [Char.ofNat 72]
        Color.black Font.load_default) :=
  ⟨(compositor_spec [sampleFragment] [[Char.ofNat 72]] 100 100
      Font.load_default 0 sampleFragment [Char.ofNat 72] rfl rfl).1,
   (compositor_spec [sampleFragment] [[Char.ofNat 72]] 100 100
      Font.load_default 0 sampleFragment [Char.ofNat 72] rfl rfl).2.1⟩

/-- C8: for every behaviour of the collaborators, the public operation
returns either an image value or an error value; a raised exception in the
body is converted by the top-level handlers into an error result (never
propagated); and every image result is a PNG data URI. -/
theorem capture_and_translate_total (w : World) (file0 : Bool) :
    ((∃ u, (capture_and_translate w file0).result = ApiResult.image u) ∨
     (∃ m, (capture_and_translate w file0).result = ApiResult.error m)) ∧
    (∀ e, (capture_and_translate_body w file0).1 = Except.error e →
      (capture_and_translate w file0).result = ApiResult.error (excMessage e)) ∧
    (∀ u, (capture_and_translate w file0).result = ApiResult.image u →
      ∃ s, u = "data:image/png;base64," ++ s) := by
  refine ⟨?_, ?_, ?_⟩
  · rcases result_cases w file0 with ⟨m, hm⟩ | him
    · exact Or.inr ⟨m, hm⟩
    · exact Or.inl ⟨_, him⟩
  · intro e he
    show (match (capture_and_translate_body w file0).1 with
      | Except.ok r => r
      | Except.error e2 => ApiResult.error (excMessage e2)) = _
    rw [he]
  · intro u hu
    rcases result_cases w file0 with ⟨m, hm⟩ | him
    · rw [hm] at hu
      simp at hu
    · rw [him] at hu
      injection hu with hq
      exact ⟨w.pngEncode (pipelineOps w), hq.symm⟩

/-- Witness for C8 at the concrete successful world. -/
theorem capture_and_translate_total_witness :
    (∃ u, (capture_and_translate wBase false).result = ApiResult.image u) ∨
    (∃ m, (capture_and_translate wBase false).result = ApiResult.error m) :=
  (capture_and_translate_total wBase false).1

/-- C9: every call dispatched to the translation collaborator — by one
fragment or during a whole run of the public operation, which exposes no
target-locale parameter — carries source locale "auto" and target locale
"ja"; the skip-check fires exactly on the Unicode ranges U+3040-U+309F,
U+30A0-U+30FF and U+4E00-U+9FFF; and a nonempty text of characters solely
in the CJK-ideograph range is passed through untranslated with no call. -/
theorem translation_locales (e : Text → TransResult) (t : Text) (w : World)
    (file0 : Bool) :
    (∀ call ∈ (translate_fragment e t).2,
      call.source = "auto" ∧ call.target = "ja") ∧
    (∀ call ∈ (capture_and_translate w file0).calls,
      call.source = "auto" ∧ call.target = "ja") ∧
    (containsJapanese t = true ↔ ∃ c ∈ t,
      (0x3040 ≤ c.toNat ∧ c.toNat ≤ 0x309F) ∨
      (0x30A0 ≤ c.toNat ∧ c.toNat ≤ 0x30FF) ∨
      (0x4E00 ≤ c.toNat ∧ c.toNat ≤ 0x9FFF)) ∧
    (t ≠ [] → (∀ c ∈ t, 0x4E00 ≤ c.toNat ∧ c.toNat ≤ 0x9FFF) →
      (translate_fragment e t).1 = t ∧ (translate_fragment e t).2 = []) := by
  refine ⟨?_, ?_, ?_, ?_⟩
  · intro call h
    exact translate_fragment_call_locales e t call h
  · intro call h
    rcases calls_cases w file0 with hnil | hpipe
    · rw [hnil] at h
      simp at h
    · rw [hpipe] at h
      exact pipelineCalls_locales w call h
  · unfold containsJapanese isJapaneseChar
    rw [List.any_eq_true]
    constructor
    · rintro ⟨c, hc, hb⟩
      exact ⟨c, hc, or_assoc.mp (by simpa using hb)⟩
    · rintro ⟨c, hc, hb⟩
      exact ⟨c, hc, by simpa using or_assoc.mpr hb⟩
  · intro hne hall
    have hjp : ∀ c ∈ t, isJapaneseChar c = true := by
      intro c hc
      have h2 := hall c hc
      unfold isJapaneseChar
      simp [h2.1, h2.2]
    have hs : containsJapanese t = true := containsJapanese_of_all t hne hjp
    constructor
    · unfold translate_fragment
      rw [if_pos hs]
    · unfold translate_fragment
      rw [if_pos hs]

/-- Witness for C9: a text of two Chinese-script ideographs is passed
through with zero calls, and its skip-check fires. -/
theorem translation_locales_witness :
    (translate_fragment (fun _ => TransResult.raised)
      [Char.ofNat 0x4E2D, Char.ofNat 0x6587]).1 =
        [Char.ofNat 0x4E2D, Char.ofNat 0x6587] ∧
    (translate_fragment (fun _ => TransResult.raised)
      [Char.ofNat 0x4E2D, Char.ofNat 0x6587]).2 = [] :=
  (translation_locales (fun _ => TransResult.raised)
      [Char.ofNat 0x4E2D, Char.ofNat 0x6587] wBase false).2.2.2
    (by decide) (by decide)

/-- C10: a nonzero capture exit status yields the "Capture cancelled"
error; a zero exit with no file at the capture path yields the
"Canceled or failed to capture" error, without invoking OCR or
translation; in both cases no image is produced, and no capture file
exists afterwards (given that none was present before the run and the
failing capture wrote none, per the capture collaborator contract). -/
theorem capture_cancel_paths (w : World) (file0 : Bool) :
    (∀ written, w.capture = CaptureBehavior.exitNonzero written →
      (capture_and_translate w file0).result =
        ApiResult.error ("Capture cancelled") ∧
      (capture_and_translate w file0).ocrCalls = 0 ∧
      (capture_and_translate w file0).calls = [] ∧
      (written = false → file0 = false →
        (capture_and_translate w file0).fileExists = false)) ∧
    (∀ written, w.capture = CaptureBehavior.exitZero written →
      (file0 || written) = false →
      (capture_and_translate w file0).result =
        ApiResult.error ("Canceled or failed to capture") ∧
      (capture_and_translate w file0).ocrCalls = 0 ∧
      (capture_and_translate w file0).calls = [] ∧
      (capture_and_translate w file0).fileExists = false) := by
  constructor
  · intro written hcap
    rw [run_exitNonzero w file0 written hcap]
    refine ⟨rfl, rfl, rfl, ?_⟩
    intro hw hf
    rw [hw, hf]
    rfl
  · intro written hcap hf
    rw [run_noFile w file0 written hcap hf]
    exact ⟨rfl, rfl, rfl, rfl⟩

/-- Witness for C10 at the two concrete cancellation worlds. -/
theorem capture_cancel_paths_witness :
    ((capture_and_translate wCancelled false).result =
      ApiResult.error ("Capture cancelled") ∧
     (capture_and_translate wCancelled false).fileExists = false) ∧
    ((capture_and_translate wNoFile false).result =
      ApiResult.error ("Canceled or failed to capture") ∧
     (capture_and_translate wNoFile false).ocrCalls = 0 ∧
     (capture_and_translate wNoFile false).fileExists = false) :=
  ⟨⟨((capture_cancel_paths wCancelled false).1 false rfl).1,
    ((capture_cancel_paths wCancelled false).1 false rfl).2.2.2 rfl rfl⟩,
   ⟨((capture_cancel_paths wNoFile false).2 false rfl rfl).1,
    ((capture_cancel_paths wNoFile false).2 false rfl rfl).2.1,
    ((capture_cancel_paths wNoFile false).2 false rfl rfl).2.2.2⟩⟩

end VisionTranslator
